import Mathlib

/-!
Shallow embedding of `src/azure/storage/container/requests/get_acl_builder.rs`
from the AzureSDKForRust repository: the `GetACLBuilder` request builder for
retrieving a blob-storage container's access-control policy.

The Rust builder uses a phantom type parameter `ContainerNameSet : ToAssign`
(instantiated at `Yes`/`No`) to track, at the type level, whether the required
container name has been supplied.  Here that marker is embedded as a `Bool`
field `nameSet` of the builder state, and `finalize`'s restriction to the
`Yes` variant is recorded by the `finalizeAvailable` predicate.

Collaborators from `azure::core` and `azure::storage::client` are not part of
the given sources; they are modelled from the specification, and each such
definition is marked `Modelled from the spec:` in its doc comment.
-/

namespace AzureGetACL

/-- Modelled from the spec: the storage `Client` (azure::storage::client is not
under src/) is "a client object exposing account name and a perform_request
operation"; only the account name is consulted by URL construction, and the
transport is abstracted as an `Except` value fed to `finalizePipeline`. -/
structure Client where
  account : String
deriving Repr, DecidableEq

/-- Modelled from the spec: a `LeaseId` (azure::core::lease, not under src/) is
an opaque "token representing an exclusive lock"; only its rendered form is
relevant here. -/
abbrev LeaseId := String

/-- The builder state of `GetACLBuilder<'a, ContainerNameSet>`.  The `nameSet`
field embeds the phantom type-state marker `ContainerNameSet` (`true` for
`Yes`, `false` for `No`); the remaining fields are the Rust struct's fields,
with `u64` timeouts as `Nat` and borrowed strings as `String`. -/
structure GetACLBuilder where
  nameSet : Bool
  client : Client
  container_name : Option String
  timeout : Option Nat
  client_request_id : Option String
  lease_id : Option LeaseId
deriving Repr, DecidableEq

/-- `GetACLBuilder::new`: fresh builder in the `No` (name-unset) state with all
optional fields empty. -/
def GetACLBuilder.new (client : Client) : GetACLBuilder :=
  { nameSet := false, client := client, container_name := none, timeout := none,
    client_request_id := none, lease_id := none }

/-- `ContainerNameSupport::with_container_name`: sets the container name and
moves the builder into the `Yes` (name-set) state; every other field is copied
from the input builder. -/
def with_container_name (b : GetACLBuilder) (container_name : String) : GetACLBuilder :=
  { nameSet := true, client := b.client, container_name := some container_name,
    timeout := b.timeout, client_request_id := b.client_request_id,
    lease_id := b.lease_id }

/-- `TimeoutSupport::with_timeout`: sets the timeout; the type-state marker and
every other field are copied from the input builder. -/
def with_timeout (b : GetACLBuilder) (timeout : Nat) : GetACLBuilder :=
  { nameSet := b.nameSet, client := b.client, container_name := b.container_name,
    timeout := some timeout, client_request_id := b.client_request_id,
    lease_id := b.lease_id }

/-- `ClientRequestIdSupport::with_client_request_id`: sets the client request
id; the type-state marker and every other field are copied from the input. -/
def with_client_request_id (b : GetACLBuilder) (client_request_id : String) : GetACLBuilder :=
  { nameSet := b.nameSet, client := b.client, container_name := b.container_name,
    timeout := b.timeout, client_request_id := some client_request_id,
    lease_id := b.lease_id }

/-- `LeaseIdSupport::with_lease_id`: sets the lease id; the type-state marker
and every other field are copied from the input builder. -/
def with_lease_id (b : GetACLBuilder) (lease_id : LeaseId) : GetACLBuilder :=
  { nameSet := b.nameSet, client := b.client, container_name := b.container_name,
    timeout := b.timeout, client_request_id := b.client_request_id,
    lease_id := some lease_id }

/-- `ContainerNameRequired::container_name` for `GetACLBuilder<'a, Yes>`:
`self.container_name.unwrap()`.  The `none` result models the panic branch of
`Option::unwrap`. -/
def container_name_accessor (b : GetACLBuilder) : Option String :=
  b.container_name

/-- Records on which builder variants the `finalize` method is declared: the
Rust `impl` block containing `finalize` is `impl<'a> GetACLBuilder<'a, Yes>`,
so `finalize` exists exactly on builders whose type-state marker is `Yes`. -/
def finalizeAvailable (b : GetACLBuilder) : Bool :=
  b.nameSet

/-- Modelled from the spec: `TimeoutOption::to_uri_parameter` (azure::core, not
under src/) renders the optional "server-side timeout query parameter" as
`timeout={n}` when the timeout is set, and nothing otherwise. -/
def to_uri_parameter (timeout : Option Nat) : Option String :=
  timeout.map (fun t => "timeout=" ++ Nat.repr t)

/-- The URL construction performed by `finalize`:
`format!("https://{}.blob.core.windows.net/{}?restype=container&comp=acl", account, name)`
followed by `uri = format!("{}&{}", uri, nm)` when `to_uri_parameter` yields a
parameter.  The `none` result models the panic of the `container_name()`
unwrap on a builder whose name was never stored. -/
def finalizeUri (b : GetACLBuilder) : Option String :=
  b.container_name.map (fun name =>
    let uri := "https://" ++ b.client.account ++ ".blob.core.windows.net/" ++ name
      ++ "?restype=container&comp=acl"
    match to_uri_parameter b.timeout with
    | some nm => uri ++ "&" ++ nm
    | none => uri)

/-- Modelled from the spec: `ClientRequestIdOption::add_header` (azure::core,
not under src/) attaches the `x-ms-client-request-id` header when the client
request id is set, and nothing otherwise. -/
def add_client_request_id_header (b : GetACLBuilder) (hs : List (String × String)) :
    List (String × String) :=
  match b.client_request_id with
  | some id => hs ++ [("x-ms-client-request-id", id)]
  | none => hs

/-- Modelled from the spec: `LeaseIdOption::add_header` (azure::core, not under
src/) attaches the lease-id header (`x-ms-lease-id`) when the lease id is set,
and nothing otherwise. -/
def add_lease_id_header (b : GetACLBuilder) (hs : List (String × String)) :
    List (String × String) :=
  match b.lease_id with
  | some l => hs ++ [("x-ms-lease-id", l)]
  | none => hs

/-- The header-attachment closure passed by `finalize` to `perform_request`:
`ClientRequestIdOption::add_header` followed by `LeaseIdOption::add_header`,
starting from a request with no optional headers. -/
def finalizeHeaders (b : GetACLBuilder) : List (String × String) :=
  add_lease_id_header b (add_client_request_id_header b [])

/-- An HTTP response as seen by the status check: status code, headers, body. -/
structure HttpResponse where
  status : Nat
  headers : List (String × String)
  body : String
deriving Repr, DecidableEq

/-- Modelled from the spec: the single uniform error type `AzureError`
(azure::core::errors, not under src/) represents "transport failures,
unexpected HTTP status codes, and response-parsing failures". -/
inductive AzureError where
  | TransportError (msg : String)
  | UnexpectedHTTPResult (expected received : Nat) (body : String)
  | ParseError (msg : String)
deriving Repr, DecidableEq

/-- Modelled from the spec: `check_status_extract_headers_and_body`
(azure::core::errors, not under src/) is "a response-extraction function which
validates status code and yields headers+body", erring on any other status. -/
def check_status_extract_headers_and_body (resp : HttpResponse) (expected : Nat) :
    Except AzureError (List (String × String) × String) :=
  if resp.status = expected then Except.ok (resp.headers, resp.body)
  else Except.error (AzureError.UnexpectedHTTPResult expected resp.status resp.body)

/-- The response pipeline composed by `finalize`:
`done(req).from_err().and_then(check_status_extract_headers_and_body(_, OK)).and_then(from_response)`.
The transport outcome of `perform_request` is the `req` argument; the
body/header parser `GetACLResponse::from_response` is the abstract `parse`
argument (its result type `α` stands for `GetACLResponse`, which is opaque to
this file); `StatusCode::OK` is 200. -/
def finalizePipeline {α : Type} (parse : List (String × String) → String → Except AzureError α)
    (req : Except AzureError HttpResponse) : Except AzureError α :=
  match req with
  | Except.error e => Except.error e
  | Except.ok resp =>
    match check_status_extract_headers_and_body resp 200 with
    | Except.error e => Except.error e
    | Except.ok (headers, body) => parse headers body

/-- The builders reachable through the public API: `new` followed by any
sequence of the exposed setters. -/
inductive Reachable : GetACLBuilder → Prop where
  | base (c : Client) : Reachable (GetACLBuilder.new c)
  | name (b : GetACLBuilder) (n : String) : Reachable b → Reachable (with_container_name b n)
  | time (b : GetACLBuilder) (t : Nat) : Reachable b → Reachable (with_timeout b t)
  | reqid (b : GetACLBuilder) (r : String) : Reachable b → Reachable (with_client_request_id b r)
  | lease (b : GetACLBuilder) (l : LeaseId) : Reachable b → Reachable (with_lease_id b l)

/-- Number of occurrences of the pattern `p` in a character list: the number of
positions at which `p` is a prefix of the remaining suffix. -/
def occurs (p : List Char) : List Char → Nat
  | [] => 0
  | c :: rest => (if p.isPrefixOf (c :: rest) then 1 else 0) + occurs p rest

/-- Number of occurrences of the substring `p` in the string `s`. -/
def occursStr (p s : String) : Nat :=
  occurs p.data s.data

/-- Number of headers in `hs` carrying the given header name. -/
def countHeaders (key : String) (hs : List (String × String)) : Nat :=
  hs.countP (fun p => p.1 == key)

/-- C1: for every builder in the name-set state with no optional fields set,
`finalize` constructs exactly
`https://{account}.blob.core.windows.net/{container}?restype=container&comp=acl`
with the client's account name and the stored container name substituted, and
no trailing query parameters. -/
theorem finalize_url_no_options (b : GetACLBuilder) (name : String)
    (_hset : b.nameSet = true) (hname : b.container_name = some name)
    (htime : b.timeout = none) (_hreq : b.client_request_id = none)
    (_hlease : b.lease_id = none) :
    finalizeUri b = some ("https://" ++ b.client.account ++ ".blob.core.windows.net/"
      ++ name ++ "?restype=container&comp=acl") := by
  simp [finalizeUri, to_uri_parameter, hname, htime]

/-- Witness for C1 at a concrete builder. -/
theorem finalize_url_no_options_witness :
    finalizeUri { nameSet := true, client := { account := "myaccount" },
                  container_name := some "mycontainer", timeout := none,
                  client_request_id := none, lease_id := none } =
      some "https://myaccount.blob.core.windows.net/mycontainer?restype=container&comp=acl" :=
  (finalize_url_no_options _ "mycontainer" rfl rfl rfl rfl rfl).trans (by decide)

/-- C2: the `finalize` operation is declared exactly on the name-set (`Yes`)
builder variant; the optional setters are available in every state and leave
the type-state marker unchanged; `with_container_name` moves any builder into
the name-set state. -/
theorem typestate_markers :
    (∀ (b : GetACLBuilder) (n : String), (with_container_name b n).nameSet = true) ∧
    (∀ (b : GetACLBuilder) (t : Nat), (with_timeout b t).nameSet = b.nameSet) ∧
    (∀ (b : GetACLBuilder) (r : String), (with_client_request_id b r).nameSet = b.nameSet) ∧
    (∀ (b : GetACLBuilder) (l : LeaseId), (with_lease_id b l).nameSet = b.nameSet) ∧
    (∀ b : GetACLBuilder, finalizeAvailable b = true ↔ b.nameSet = true) :=
  ⟨fun _ _ => rfl, fun _ _ => rfl, fun _ _ => rfl, fun _ _ => rfl, fun _ => Iff.rfl⟩

/-- C3: a 200 response is the only case in which the body/header parser is
invoked (and its typed result returned); every non-200 status yields the
status-mismatch error without the parser being consulted. -/
theorem status_gates_parse {α : Type}
    (parse : List (String × String) → String → Except AzureError α)
    (resp : HttpResponse) :
    (resp.status = 200 →
      finalizePipeline parse (Except.ok resp) = parse resp.headers resp.body) ∧
    (resp.status ≠ 200 →
      finalizePipeline parse (Except.ok resp) =
        Except.error (AzureError.UnexpectedHTTPResult 200 resp.status resp.body)) := by
  constructor
  · intro h
    simp [finalizePipeline, check_status_extract_headers_and_body, h]
  · intro h
    simp [finalizePipeline, check_status_extract_headers_and_body, h]

/-- Witness for C3: a 200 response reaches the parser, a 404 response does
not. -/
theorem status_gates_parse_witness :
    finalizePipeline (fun _ _ => Except.ok (0 : Nat)) (Except.ok ⟨200, [], "xml"⟩) =
      Except.ok 0 ∧
    finalizePipeline (fun _ _ => Except.ok (0 : Nat)) (Except.ok ⟨404, [], "err"⟩) =
      Except.error (AzureError.UnexpectedHTTPResult 200 404 "err") :=
  ⟨(status_gates_parse _ _).1 rfl, (status_gates_parse _ _).2 (by decide)⟩

/-- C5: when the client-request-id (resp. lease id) is set, `finalize` attaches
exactly one corresponding header, and setting either field never changes the
constructed URL. -/
theorem optional_headers (b : GetACLBuilder) :
    (∀ id, b.client_request_id = some id →
      countHeaders "x-ms-client-request-id" (finalizeHeaders b) = 1) ∧
    (∀ l, b.lease_id = some l →
      countHeaders "x-ms-lease-id" (finalizeHeaders b) = 1) ∧
    (∀ id, finalizeUri (with_client_request_id b id) = finalizeUri b) ∧
    (∀ l, finalizeUri (with_lease_id b l) = finalizeUri b) := by
  refine ⟨?_, ?_, fun _ => rfl, fun _ => rfl⟩
  · intro id hid
    cases hl : b.lease_id <;>
      simp [finalizeHeaders, add_lease_id_header, add_client_request_id_header,
        countHeaders, hid, hl]
  · intro l hl
    cases hid : b.client_request_id <;>
      simp [finalizeHeaders, add_lease_id_header, add_client_request_id_header,
        countHeaders, hid, hl]

/-- Witness for C5 at a concrete builder with both optional header fields
set. -/
theorem optional_headers_witness :
    countHeaders "x-ms-client-request-id"
      (finalizeHeaders ⟨true, ⟨"a"⟩, some "c", none, some "rid", some "lid"⟩) = 1 ∧
    countHeaders "x-ms-lease-id"
      (finalizeHeaders ⟨true, ⟨"a"⟩, some "c", none, some "rid", some "lid"⟩) = 1 ∧
    finalizeUri (with_client_request_id ⟨true, ⟨"a"⟩, some "c", none, some "rid", some "lid"⟩ "r2") =
      finalizeUri ⟨true, ⟨"a"⟩, some "c", none, some "rid", some "lid"⟩ ∧
    finalizeUri (with_lease_id ⟨true, ⟨"a"⟩, some "c", none, some "rid", some "lid"⟩ "l2") =
      finalizeUri ⟨true, ⟨"a"⟩, some "c", none, some "rid", some "lid"⟩ :=
  ⟨(optional_headers _).1 "rid" rfl, (optional_headers _).2.1 "lid" rfl,
    (optional_headers _).2.2.1 "r2", (optional_headers _).2.2.2 "l2"⟩

/-- C6: every failure of the `finalize` pipeline — transport error, non-200
status, or parse error — is surfaced as an `AzureError` value and propagated
unchanged to the caller, with no retry or local recovery. -/
theorem errors_propagate {α : Type}
    (parse : List (String × String) → String → Except AzureError α) :
    (∀ e, finalizePipeline parse (Except.error e) = Except.error e) ∧
    (∀ resp : HttpResponse, resp.status ≠ 200 →
      finalizePipeline parse (Except.ok resp) =
        Except.error (AzureError.UnexpectedHTTPResult 200 resp.status resp.body)) ∧
    (∀ (resp : HttpResponse) (e : AzureError), resp.status = 200 →
      parse resp.headers resp.body = Except.error e →
      finalizePipeline parse (Except.ok resp) = Except.error e) := by
  refine ⟨fun _ => rfl, fun resp h => ?_, fun resp e h hp => ?_⟩
  · simp [finalizePipeline, check_status_extract_headers_and_body, h]
  · simp [finalizePipeline, check_status_extract_headers_and_body, h, hp]

/-- Witness for C6: each of the three failure sources propagates at a concrete
input. -/
theorem errors_propagate_witness :
    finalizePipeline (fun _ _ => Except.ok (0 : Nat))
        (Except.error (AzureError.TransportError "t")) =
      Except.error (AzureError.TransportError "t") ∧
    finalizePipeline (fun _ _ => Except.ok (0 : Nat)) (Except.ok ⟨500, [], "b"⟩) =
      Except.error (AzureError.UnexpectedHTTPResult 200 500 "b") ∧
    finalizePipeline (fun _ _ => (Except.error (AzureError.ParseError "bad") : Except AzureError Nat))
        (Except.ok ⟨200, [], "b"⟩) =
      Except.error (AzureError.ParseError "bad") :=
  ⟨(errors_propagate _).1 _, (errors_propagate _).2.1 _ (by decide),
    (errors_propagate _).2.2 _ _ rfl rfl⟩

/-- C7: every setter returns a builder in which exactly the named field is
updated and each other field equals the corresponding field of the input. -/
theorem setters_frame (b : GetACLBuilder) (n : String) (t : Nat) (r : String) (l : LeaseId) :
    ((with_container_name b n).container_name = some n ∧
      (with_container_name b n).client = b.client ∧
      (with_container_name b n).timeout = b.timeout ∧
      (with_container_name b n).client_request_id = b.client_request_id ∧
      (with_container_name b n).lease_id = b.lease_id) ∧
    ((with_timeout b t).timeout = some t ∧
      (with_timeout b t).client = b.client ∧
      (with_timeout b t).container_name = b.container_name ∧
      (with_timeout b t).client_request_id = b.client_request_id ∧
      (with_timeout b t).lease_id = b.lease_id) ∧
    ((with_client_request_id b r).client_request_id = some r ∧
      (with_client_request_id b r).client = b.client ∧
      (with_client_request_id b r).container_name = b.container_name ∧
      (with_client_request_id b r).timeout = b.timeout ∧
      (with_client_request_id b r).lease_id = b.lease_id) ∧
    ((with_lease_id b l).lease_id = some l ∧
      (with_lease_id b l).client = b.client ∧
      (with_lease_id b l).container_name = b.container_name ∧
      (with_lease_id b l).timeout = b.timeout ∧
      (with_lease_id b l).client_request_id = b.client_request_id) :=
  ⟨⟨rfl, rfl, rfl, rfl, rfl⟩, ⟨rfl, rfl, rfl, rfl, rfl⟩,
    ⟨rfl, rfl, rfl, rfl, rfl⟩, ⟨rfl, rfl, rfl, rfl, rfl⟩⟩

/-- C8: on every builder reachable through the public API whose type-state
marker says the name is set, the `container_name` field is `Some`, so the
unwrapping accessor `container_name()` cannot panic. -/
theorem container_name_unwrap_safe (b : GetACLBuilder) (h : Reachable b) :
    b.nameSet = true → ∃ n, container_name_accessor b = some n := by
  induction h with
  | base c => intro hs; simp [GetACLBuilder.new] at hs
  | name b n _ _ => intro _; exact ⟨n, rfl⟩
  | time b t _ ih => intro hs; exact ih hs
  | reqid b r _ ih => intro hs; exact ih hs
  | lease b l _ ih => intro hs; exact ih hs

/-- Witness for C8 on a concretely reachable name-set builder. -/
theorem container_name_unwrap_safe_witness :
    ∃ n, container_name_accessor
        (with_timeout (with_container_name (GetACLBuilder.new ⟨"a"⟩) "cont") 30) = some n :=
  container_name_unwrap_safe _
    (Reachable.time _ 30 (Reachable.name _ "cont" (Reachable.base ⟨"a"⟩))) rfl

lemma occurs_cons (p : List Char) (c : Char) (rest : List Char) :
    occurs p (c :: rest) = (if p.isPrefixOf (c :: rest) then 1 else 0) + occurs p rest :=
  rfl

lemma occurs_append_notMem {c : Char} {tl xs ys : List Char} (h : c ∉ xs) :
    occurs (c :: tl) (xs ++ ys) = occurs (c :: tl) ys := by
  induction xs with
  | nil => rfl
  | cons x xs ih =>
    have hx : (c == x) = false := by
      refine beq_eq_false_iff_ne.mpr (fun e => h ?_)
      exact e ▸ List.mem_cons_self x xs
    have hpre : (c :: tl).isPrefixOf (x :: (xs ++ ys)) = false := by
      simp [List.isPrefixOf, hx]
    calc occurs (c :: tl) ((x :: xs) ++ ys)
        = (if (c :: tl).isPrefixOf (x :: (xs ++ ys)) then 1 else 0)
            + occurs (c :: tl) (xs ++ ys) := rfl
      _ = occurs (c :: tl) (xs ++ ys) := by rw [hpre]; simp
      _ = occurs (c :: tl) ys := ih (fun hm => h (List.mem_cons_of_mem _ hm))

lemma occurs_eq_zero {c : Char} {tl l : List Char} (h : c ∉ l) :
    occurs (c :: tl) l = 0 := by
  have h2 := @occurs_append_notMem c tl l [] h
  simpa [occurs] using h2

lemma isPrefixOf_self : ∀ l : List Char, l.isPrefixOf l = true
  | [] => rfl
  | c :: rest => by simp [List.isPrefixOf, isPrefixOf_self rest]

lemma occurs_cons_ne {c x : Char} {tl rest : List Char} (h : ¬ c = x) :
    occurs (c :: tl) (x :: rest) = occurs (c :: tl) rest := by
  rw [occurs_cons]
  have hpre : (c :: tl).isPrefixOf (x :: rest) = false := by
    simp [List.isPrefixOf, beq_eq_false_iff_ne.mpr h]
  rw [hpre]
  simp

lemma occurs_cons_ne2 {c d x : Char} {tl rest : List Char} (h : ¬ d = x) :
    occurs (c :: d :: tl) (c :: x :: rest) = occurs (c :: d :: tl) (x :: rest) := by
  rw [occurs_cons]
  have hpre : (c :: d :: tl).isPrefixOf (c :: x :: rest) = false := by
    simp [List.isPrefixOf, beq_eq_false_iff_ne.mpr h]
  rw [hpre]
  simp

lemma occurs_self_cons (c : Char) (tl : List Char) :
    occurs (c :: tl) (c :: tl) = 1 + occurs (c :: tl) tl := by
  rw [occurs_cons, isPrefixOf_self]
  simp

lemma digitChar_ne_amp (n : Nat) : Nat.digitChar n ≠ '&' := by
  rcases Nat.lt_or_ge n 16 with h | h
  · interval_cases n <;> decide
  · have hstar : Nat.digitChar n = '*' := by
      unfold Nat.digitChar
      rw [if_neg (by omega : ¬ n = 0), if_neg (by omega : ¬ n = 1),
        if_neg (by omega : ¬ n = 2), if_neg (by omega : ¬ n = 3),
        if_neg (by omega : ¬ n = 4), if_neg (by omega : ¬ n = 5),
        if_neg (by omega : ¬ n = 6), if_neg (by omega : ¬ n = 7),
        if_neg (by omega : ¬ n = 8), if_neg (by omega : ¬ n = 9),
        if_neg (by omega : ¬ n = 10), if_neg (by omega : ¬ n = 11),
        if_neg (by omega : ¬ n = 12), if_neg (by omega : ¬ n = 13),
        if_neg (by omega : ¬ n = 14), if_neg (by omega : ¬ n = 15)]
    rw [hstar]
    decide

lemma toDigitsCore_ne_amp :
    ∀ (fuel n : Nat) (ds : List Char), (∀ c ∈ ds, c ≠ '&') →
      ∀ c ∈ Nat.toDigitsCore 10 fuel n ds, c ≠ '&' := by
  intro fuel
  induction fuel with
  | zero =>
    intro n ds h
    simpa [Nat.toDigitsCore] using h
  | succ f ih =>
    intro n ds h
    have hds : ∀ c ∈ Nat.digitChar (n % 10) :: ds, c ≠ '&' := by
      intro c hc
      rcases List.mem_cons.mp hc with h1 | h2
      · exact h1 ▸ digitChar_ne_amp _
      · exact h c h2
    simp only [Nat.toDigitsCore]
    split
    · exact hds
    · exact ih _ _ hds

lemma repr_ne_amp (t : Nat) : '&' ∉ (Nat.repr t).data := by
  intro hmem
  have h : ∀ c ∈ Nat.toDigits 10 t, c ≠ '&' :=
    toDigitsCore_ne_amp (t + 1) t [] (by intro c hc; cases hc)
  exact h '&' hmem rfl

/-- C4: whenever the timeout field is set (it then holds the most recently set
value, by the setter definitions), the URL built by `finalize` contains the
substring `&timeout={value}` exactly once.  The hypotheses that the account
and container name contain no `&` encode URL-safe (valid) Azure names. -/
theorem timeout_appended_once (b : GetACLBuilder) (name : String) (t : Nat)
    (hname : b.container_name = some name) (htime : b.timeout = some t)
    (hacct : '&' ∉ b.client.account.data) (hn : '&' ∉ name.data) :
    ∃ u, finalizeUri b = some u ∧ occursStr ("&timeout=" ++ Nat.repr t) u = 1 := by
  refine ⟨("https://" ++ b.client.account ++ ".blob.core.windows.net/" ++ name
      ++ "?restype=container&comp=acl") ++ "&" ++ ("timeout=" ++ Nat.repr t), ?_, ?_⟩
  · simp [finalizeUri, to_uri_parameter, hname, htime]
  · unfold occursStr
    simp only [String.data_append, List.append_assoc, List.cons_append, List.nil_append]
    simp +decide [occurs_cons_ne, occurs_cons_ne2, occurs_self_cons,
      occurs_append_notMem, occurs_eq_zero, hacct, hn, repr_ne_amp t]

/-- Witness for C4 at a concrete builder with the timeout set to 30. -/
theorem timeout_appended_once_witness :
    ∃ u, finalizeUri ⟨true, ⟨"acct"⟩, some "cont", some 30, none, none⟩ = some u ∧
      occursStr ("&timeout=" ++ Nat.repr 30) u = 1 :=
  timeout_appended_once _ "cont" 30 rfl rfl (by decide) (by decide)

/-- C9: distinct optional setters commute in every pairing. -/
theorem optional_setters_commute (b : GetACLBuilder) (t : Nat) (r : String) (l : LeaseId) :
    with_client_request_id (with_timeout b t) r = with_timeout (with_client_request_id b r) t ∧
    with_lease_id (with_timeout b t) l = with_timeout (with_lease_id b l) t ∧
    with_lease_id (with_client_request_id b r) l = with_client_request_id (with_lease_id b l) r :=
  ⟨rfl, rfl, rfl⟩

/-- C10: every setter is last-write-wins: applying it twice equals applying it
once with the second value. -/
theorem setters_last_write_wins (b : GetACLBuilder) (t1 t2 : Nat) (r1 r2 : String)
    (l1 l2 : LeaseId) (n1 n2 : String) :
    with_timeout (with_timeout b t1) t2 = with_timeout b t2 ∧
    with_client_request_id (with_client_request_id b r1) r2 = with_client_request_id b r2 ∧
    with_lease_id (with_lease_id b l1) l2 = with_lease_id b l2 ∧
    with_container_name (with_container_name b n1) n2 = with_container_name b n2 :=
  ⟨rfl, rfl, rfl, rfl⟩

end AzureGetACL
